import Mathlib

/-!
Verification development for the security-audit pipeline of the repository
(`src/audit/security_auditor.py` and `src/audit/risk_calculator.py`).

The Python code is shallowly embedded:

* the closed string enumerations `severity` and `category` that the scanner
  produces are modelled as inductive types (`_get_severity` only ever returns
  one of the four severity strings, and the pattern catalog fixes the nine
  categories);
* Python `float` arithmetic on the scores is modelled exactly by `ℚ`
  (every constant in the code is decimal), and Python `round(x, 1)`
  (round half to even) is modelled by `pyRound1`;
* `re.search(pattern, line, re.IGNORECASE)` is modelled by a Brzozowski
  derivative matcher `reSearch` over a small regex syntax `RE`; the
  case-insensitive flag is modelled by lowercasing the line and writing the
  catalog patterns in lowercase;
* filesystem enumeration (`Path.rglob`) is modelled by an explicit list of
  `FileEntry` records; a file read (`open` with errors=ignore, then `read`)
  is an `Except` value carrying the raw bytes on success, decoded by the
  UTF-8 decoder `decodeIgnore`.
-/

set_option maxRecDepth 4000
set_option autoImplicit false

/-- Severity levels produced by `SecurityAuditor._get_severity`. -/
inductive Severity where
  | critical
  | high
  | medium
  | low
deriving DecidableEq, BEq

/-- The nine vulnerability categories of the pattern catalog
(`SecurityAuditor.patterns`). -/
inductive Category where
  | xss
  | sql_injection
  | command_injection
  | path_traversal
  | ssrf
  | hardcoded_secrets
  | weak_crypto
  | insecure_deserialization
  | information_disclosure
deriving DecidableEq, BEq

/-- Severity of each category (`SecurityAuditor._get_severity`; the
`severity_map.get` default of low is unreachable for the nine
catalog categories). -/
def get_severity : Category → Severity
  | .sql_injection => .critical
  | .command_injection => .critical
  | .xss => .critical
  | .ssrf => .high
  | .path_traversal => .high
  | .hardcoded_secrets => .high
  | .insecure_deserialization => .high
  | .weak_crypto => .medium
  | .information_disclosure => .medium

/-- Remediation text per category (`SecurityAuditor._get_remediation`). -/
def get_remediation : Category → String
  | .xss => "Use proper input validation and output encoding. Implement CSP headers."
  | .sql_injection => "Use parameterized queries or prepared statements."
  | .command_injection => "Validate and sanitize all user inputs. Use safe APIs."
  | .path_traversal => "Validate file paths and use allowlists for permitted directories."
  | .ssrf => "Validate and restrict URLs. Use allowlists for permitted domains."
  | .hardcoded_secrets => "Use environment variables or secure key management systems."
  | .weak_crypto => "Use strong cryptographic algorithms (AES-256, SHA-256+)."
  | .insecure_deserialization => "Validate data before deserialization or use safe formats."
  | .information_disclosure => "Remove sensitive information from logs and error messages."

/-- CWE identifier per category (`SecurityAuditor._get_cwe_id`). -/
def get_cwe_id : Category → String
  | .xss => "CWE-79"
  | .sql_injection => "CWE-89"
  | .command_injection => "CWE-78"
  | .path_traversal => "CWE-22"
  | .ssrf => "CWE-918"
  | .hardcoded_secrets => "CWE-798"
  | .weak_crypto => "CWE-327"
  | .insecure_deserialization => "CWE-502"
  | .information_disclosure => "CWE-200"

/-- CVSS score per severity (`SecurityAuditor._get_cvss_score`). -/
def get_cvss_score : Severity → ℚ
  | .critical => 9
  | .high => 15 / 2
  | .medium => 5
  | .low => 5 / 2

/-- The `Vulnerability` dataclass of `security_auditor.py`. -/
structure Vulnerability where
  severity : Severity
  category : Category
  description : String
  file_path : String
  line_number : ℕ
  code_snippet : List Char
  remediation : String
  cwe_id : String
  cvss_score : ℚ
deriving DecidableEq

/-- Severity weights used by `SecurityAuditor.calculate_risk_score`. -/
def severity_weights : Severity → ℕ
  | .critical => 10
  | .high => 7
  | .medium => 4
  | .low => 1

/-- Python `round` to the nearest integer: round half to even
(the behaviour of `round(x)` on the exact rational value). -/
def pyRoundInt (q : ℚ) : ℤ :=
  if q - Int.floor q < 1 / 2 then Int.floor q
  else if 1 / 2 < q - Int.floor q then Int.floor q + 1
  else if Int.floor q % 2 = 0 then Int.floor q else Int.floor q + 1

/-- Python `round(x, 1)`: scale by ten, round half to even, scale back. -/
def pyRound1 (q : ℚ) : ℚ := (pyRoundInt (10 * q) : ℚ) / 10

/-- Regular-expression syntax covering every construct used in
`SecurityAuditor.patterns`: character classes given as unions of inclusive
ranges (possibly negated), concatenation, alternation and Kleene star. -/
inductive RE where
  | emp : RE
  | eps : RE
  | cls : List (Char × Char) → Bool → RE
  | cat : RE → RE → RE
  | alt : RE → RE → RE
  | star : RE → RE

/-- Class membership: inside one of the ranges, xor-ed with negation. -/
def clsMem (ranges : List (Char × Char)) (neg : Bool) (c : Char) : Bool :=
  (ranges.any fun p => decide (p.1 ≤ c) && decide (c ≤ p.2)) != neg

/-- Nullability: whether the expression accepts the empty word. -/
def RE.nullable : RE → Bool
  | .emp => false
  | .eps => true
  | .cls _ _ => false
  | .cat a b => a.nullable && b.nullable
  | .alt a b => a.nullable || b.nullable
  | .star _ => true

/-- Concatenation with eager simplification of the empty and epsilon
expressions (a language-preserving smart constructor keeping derivative
terms small). -/
def RE.mkCat : RE → RE → RE
  | .emp, _ => .emp
  | _, .emp => .emp
  | .eps, b => b
  | a, .eps => a
  | a, b => .cat a b

/-- Alternation with eager simplification of the empty expression. -/
def RE.mkAlt : RE → RE → RE
  | .emp, b => b
  | a, .emp => a
  | a, b => .alt a b

/-- Brzozowski derivative with respect to one character. -/
def RE.deriv : RE → Char → RE
  | .emp, _ => .emp
  | .eps, _ => .emp
  | .cls ranges neg, c => if clsMem ranges neg c then .eps else .emp
  | .cat a b, c =>
      if a.nullable then .mkAlt (.mkCat (a.deriv c) b) (b.deriv c) else .mkCat (a.deriv c) b
  | .alt a b, c => .mkAlt (a.deriv c) (b.deriv c)
  | .star a, c => .mkCat (a.deriv c) (.star a)

/-- Whether the expression matches some prefix of the word. -/
def matchPre (r : RE) : List Char → Bool
  | [] => r.nullable
  | c :: cs => r.nullable || matchPre (r.deriv c) cs

/-- Whether the expression matches somewhere inside the word: the model of
Python `re.search(pattern, line)` returning a match. -/
def reSearch (r : RE) : List Char → Bool
  | [] => matchPre r []
  | c :: cs => matchPre r (c :: cs) || reSearch r cs

/-- Literal single character. -/
def chrR (c : Char) : RE := .cls [(c, c)] false

/-- Literal string (sequence of literal characters). -/
def strR (s : String) : RE := s.data.foldr (fun c r => .cat (chrR c) r) .eps

/-- Concatenation of a list of expressions. -/
def seqR (rs : List RE) : RE := rs.foldr .cat .eps

/-- Double-quote, single-quote, backslash and dollar characters (written via
code points to keep the source robust). -/
def qDbl : Char := Char.ofNat 34

def qSng : Char := Char.ofNat 39

def bSlash : Char := Char.ofNat 92

/-- Python `\s`: ASCII whitespace (space, tab, newline, return, vertical tab,
form feed); the scanned inputs are ASCII. -/
def wsC : RE :=
  .cls [(' ', ' '), ('\t', '\t'), ('\n', '\n'), ('\r', '\r'),
        (Char.ofNat 11, Char.ofNat 11), (Char.ofNat 12, Char.ofNat 12)] false

/-- Python `\s*`. -/
def ws0 : RE := .star wsC

/-- Python `\s+`. -/
def ws1 : RE := .cat wsC ws0

/-- Python `.` (any character but newline). -/
def dotR : RE := .cls [('\n', '\n')] true

/-- Python `.*`. -/
def anyR : RE := .star dotR

/-- Class matching a double or a single quote. -/
def quoteR : RE := .cls [(qDbl, qDbl), (qSng, qSng)] false

/-- Negated class rejecting a double or a single quote. -/
def notQuoteR : RE := .cls [(qDbl, qDbl), (qSng, qSng)] true

/-- Class `[^c]` for a single character `c`. -/
def notChar (c : Char) : RE := .cls [(c, c)] true

/-- n-fold repetition `r{n}`. -/
def repR (r : RE) : ℕ → RE
  | 0 => .eps
  | n + 1 => .cat r (repR r n)

/-- Python `r{n,}` desugared as `r{n}r*`. -/
def atLeastR (r : RE) (n : ℕ) : RE := .cat (repR r n) (.star r)

/-- Optional `r?`. -/
def optR (r : RE) : RE := .alt r .eps

/-- Plus `r+`. -/
def plusR (r : RE) : RE := .cat r (.star r)

/-- Class `[a-z]` (after lowercasing, this is `[a-z]` under `re.IGNORECASE`). -/
def lowerAlpha : RE := .cls [('a', 'z')] false

/-- Class `[A-Z0-9]` under `re.IGNORECASE`, applied to a lowercased line:
`[a-z0-9]`. -/
def alnumR : RE := .cls [('a', 'z'), ('0', '9')] false

/-- XSS patterns (the xss entry of `SecurityAuditor.patterns`), lowercased for the
`re.IGNORECASE` flag. -/
def patXss : List (RE × String) :=
  [ (seqR [strR "innerhtml", ws0, chrR '=', ws0, .star (notChar ';'), chrR '+'],
     "Potential XSS via innerHTML concatenation"),
    (seqR [strR "document.write", ws0, chrR '(', .star (notChar ')'), chrR '+'],
     "Potential XSS via document.write concatenation"),
    (seqR [strR "eval", ws0, chrR '(', .star (notChar ')'), chrR '+'],
     "Potential XSS via eval with user input"),
    (seqR [strR "dangerouslysetinnerhtml", anyR, notChar '}', chrR '}', chrR '}'],
     "React dangerouslySetInnerHTML usage"),
    (seqR [strR "v-html", ws0, chrR '=', ws0, quoteR, .star notQuoteR, chrR '+'],
     "Vue.js v-html with concatenation") ]

/-- SQL injection patterns (the sql_injection entry of `SecurityAuditor.patterns`). -/
def patSql : List (RE × String) :=
  [ (seqR [strR "select", anyR, chrR '+', anyR, strR "from"],
     "SQL query with string concatenation"),
    (seqR [strR "insert", anyR, chrR '+', anyR, strR "values"],
     "SQL INSERT with string concatenation"),
    (seqR [strR "update", anyR, strR "set", anyR, chrR '+'],
     "SQL UPDATE with string concatenation"),
    (seqR [strR "delete", anyR, strR "where", anyR, chrR '+'],
     "SQL DELETE with string concatenation"),
    (seqR [strR "query", ws0, chrR '(', ws0, quoteR, .star notQuoteR, chrR '+'],
     "Database query with concatenation"),
    (seqR [strR "execute", ws0, chrR '(', ws0, quoteR, .star notQuoteR, chrR '+'],
     "SQL execute with concatenation") ]

/-- Command injection patterns (the command_injection entry of `SecurityAuditor.patterns`). -/
def patCmd : List (RE × String) :=
  [ (seqR [strR "exec", ws0, chrR '(', .star (notChar ')'), chrR '+'],
     "Command execution with concatenation"),
    (seqR [strR "system", ws0, chrR '(', .star (notChar ')'), chrR '+'],
     "System command with concatenation"),
    (seqR [strR "shell_exec", ws0, chrR '(', .star (notChar ')'), chrR '+'],
     "Shell execution with concatenation"),
    (seqR [strR "subprocess.call", ws0, chrR '(', .star (notChar ')'), chrR '+'],
     "Subprocess call with concatenation"),
    (seqR [strR "os.system", ws0, chrR '(', .star (notChar ')'), chrR '+'],
     "OS system call with concatenation") ]

/-- Path traversal patterns (the path_traversal entry of `SecurityAuditor.patterns`). -/
def patPath : List (RE × String) :=
  [ (strR "../", "Potential path traversal sequence"),
    (seqR [chrR '.', chrR '.', chrR bSlash, chrR bSlash],
     "Potential Windows path traversal"),
    (seqR [strR "file_get_contents", ws0, chrR '(', .star (notChar ')'), chrR '$'],
     "File access with variable path"),
    (seqR [strR "readfile", ws0, chrR '(', .star (notChar ')'), chrR '+'],
     "File read with concatenated path"),
    (seqR [strR "open", ws0, chrR '(', .star (notChar ')'), chrR '+', anyR, quoteR, chrR 'r'],
     "File open with concatenated path") ]

/-- SSRF patterns (the ssrf entry of `SecurityAuditor.patterns`). -/
def patSsrf : List (RE × String) :=
  [ (seqR [strR "fetch", ws0, chrR '(', ws0, .star (notChar ')'), chrR '$'],
     "HTTP request with variable URL"),
    (seqR [strR "axios.", plusR lowerAlpha, ws0, chrR '(', .star (notChar ')'), chrR '$'],
     "Axios request with variable URL"),
    (seqR [strR "http.get", ws0, chrR '(', .star (notChar ')'), chrR '$'],
     "HTTP GET with variable URL"),
    (seqR [strR "requests.", plusR lowerAlpha, ws0, chrR '(', .star (notChar ')'), chrR '+'],
     "Python requests with concatenated URL"),
    (seqR [strR "curl", ws1, .star (notChar ';'), chrR '$'],
     "cURL with variable URL") ]

/-- Hardcoded secret patterns (the hardcoded_secrets entry of `SecurityAuditor.patterns`). -/
def patSecrets : List (RE × String) :=
  [ (seqR [strR "password", ws0, chrR '=', ws0, quoteR, atLeastR notQuoteR 8, quoteR],
     "Hardcoded password"),
    (seqR [strR "api", optR (.cls [('_', '_'), ('-', '-')] false), strR "key",
           ws0, chrR '=', ws0, quoteR, atLeastR notQuoteR 16, quoteR],
     "Hardcoded API key"),
    (seqR [strR "secret", ws0, chrR '=', ws0, quoteR, atLeastR notQuoteR 16, quoteR],
     "Hardcoded secret"),
    (seqR [strR "token", ws0, chrR '=', ws0, quoteR, atLeastR notQuoteR 20, quoteR],
     "Hardcoded token"),
    (atLeastR alnumR 32, "Potential hardcoded hash/key") ]

/-- Weak cryptography patterns (the weak_crypto entry of `SecurityAuditor.patterns`). -/
def patWeakCrypto : List (RE × String) :=
  [ (seqR [strR "md5", ws0, chrR '('], "Weak MD5 hashing"),
    (seqR [strR "sha1", ws0, chrR '('], "Weak SHA1 hashing"),
    (.alt (strR "des") (strR "rc4"), "Weak encryption algorithm"),
    (seqR [strR "math.random", ws0, chrR '('], "Weak random number generation"),
    (seqR [strR "random", ws0, chrR '(', ws0, chrR ')'], "Weak random function usage") ]

/-- Insecure deserialization patterns
(the insecure_deserialization entry of `SecurityAuditor.patterns`). -/
def patDeser : List (RE × String) :=
  [ (seqR [strR "pickle.loads", ws0, chrR '('], "Unsafe pickle deserialization"),
    (seqR [strR "json.parse", ws0, chrR '(', .star (notChar ')'), strR "req.body"],
     "JSON parsing user input"),
    (seqR [strR "unserialize", ws0, chrR '(', ws0, chrR '$', chrR '_'],
     "PHP unserialize user input"),
    (seqR [strR "yaml.load", ws0, chrR '(', .star (notChar ')'), chrR ')'],
     "YAML load without safe loader") ]

/-- Information disclosure patterns
(the information_disclosure entry of `SecurityAuditor.patterns`). -/
def patInfo : List (RE × String) :=
  [ (seqR [strR "console.log", ws0, chrR '(', .star (notChar ')'), strR "password"],
     "Password logged to console"),
    (seqR [strR "print", ws0, chrR '(', .star (notChar ')'), strR "password"],
     "Password in print statement"),
    (seqR [strR "printstacktrace", ws0, chrR '(', ws0, chrR ')'],
     "Stack trace exposure"),
    (seqR [strR "error_reporting", ws0, chrR '(', ws0, strR "e_all"],
     "Full error reporting enabled") ]

/-- The pattern catalog `SecurityAuditor.patterns`, in the insertion order of
the Python dict. -/
def patterns : List (Category × List (RE × String)) :=
  [ (.xss, patXss),
    (.sql_injection, patSql),
    (.command_injection, patCmd),
    (.path_traversal, patPath),
    (.ssrf, patSsrf),
    (.hardcoded_secrets, patSecrets),
    (.weak_crypto, patWeakCrypto),
    (.insecure_deserialization, patDeser),
    (.information_disclosure, patInfo) ]

/-- Split a character list on newline, keeping empty pieces: the model of
the Python split of the content on the newline character. -/
def splitNl : List Char → List (List Char)
  | [] => [[]]
  | c :: cs =>
    match splitNl cs with
    | [] => [[]]
    | l :: ls => if c = '\n' then [] :: l :: ls else (c :: l) :: ls

/-- ASCII whitespace test used by `str.strip` on the scanned lines. -/
def isSpaceC (c : Char) : Bool :=
  c = ' ' || c = '\t' || c = '\n' || c = '\r' || c = Char.ofNat 11 || c = Char.ofNat 12

/-- Python `line.strip()` on ASCII text. -/
def stripC (l : List Char) : List Char :=
  ((l.dropWhile isSpaceC).reverse.dropWhile isSpaceC).reverse

/-- Pair the elements of a list with 1-based indices: the model of
`enumerate(lines, 1)`. -/
def numberFrom {α : Type} (n : ℕ) : List α → List (ℕ × α)
  | [] => []
  | a :: l => (n, a) :: numberFrom (n + 1) l

/-- Concatenation of the images of a list under a list-valued function. -/
def concatMap {α β : Type} (f : α → List β) : List α → List β
  | [] => []
  | a :: l => f a ++ concatMap f l

/-- Python `str.lower` on a character list. -/
def toLowerC (l : List Char) : List Char := l.map Char.toLower

/-- The body of `SecurityAuditor.scan_file` after a successful read: split the
content into lines and, for each category in catalog order, each pattern of the
category, and each line in ascending order, emit one `Vulnerability` per
case-insensitive match. -/
def scan_file (file_path : String) (content : String) : List Vulnerability :=
  let lines := splitNl content.data
  concatMap
    (fun cp =>
      concatMap
        (fun pd =>
          (numberFrom 1 lines).filterMap
            (fun nl =>
              if reSearch pd.1 (toLowerC nl.2) then
                some
                  { severity := get_severity cp.1
                    category := cp.1
                    description := pd.2
                    file_path := file_path
                    line_number := nl.1
                    code_snippet := stripC nl.2
                    remediation := get_remediation cp.1
                    cwe_id := get_cwe_id cp.1
                    cvss_score := get_cvss_score (get_severity cp.1) }
              else none))
        cp.2)
    patterns

/-- Continuation byte test (0x80 to 0xBF). -/
def isCont (b : ℕ) : Bool := 128 ≤ b && b ≤ 191

/-- Legal second byte of a three-byte UTF-8 sequence (excludes overlong
encodings and surrogates, as CPython does). -/
def cont3ok (b1 b2 : ℕ) : Bool :=
  if b1 = 224 then 160 ≤ b2 && b2 ≤ 191
  else if b1 = 237 then 128 ≤ b2 && b2 ≤ 159
  else isCont b2

/-- Legal second byte of a four-byte UTF-8 sequence. -/
def cont4ok (b1 b2 : ℕ) : Bool :=
  if b1 = 240 then 144 ≤ b2 && b2 ≤ 191
  else if b1 = 244 then 128 ≤ b2 && b2 ≤ 143
  else isCont b2

/-- Fuel-indexed UTF-8 decoding loop. `onErr` is the error handler output for
one rejected byte: the empty list models errors=ignore, a one-element
U+FFFD list models errors=replace. A byte that cannot start a legal sequence
is handed to the handler one byte at a time, which is the CPython behaviour
for the byte strings considered in this development. -/
def utf8DecodeGo (onErr : List Char) : ℕ → List ℕ → List Char
  | _, [] => []
  | 0, _ :: _ => []
  | f + 1, b1 :: bs =>
    if b1 < 128 then Char.ofNat b1 :: utf8DecodeGo onErr f bs
    else if 194 ≤ b1 && b1 ≤ 223 then
      match bs with
      | b2 :: r2 =>
        if isCont b2 then
          Char.ofNat ((b1 - 192) * 64 + (b2 - 128)) :: utf8DecodeGo onErr f r2
        else onErr ++ utf8DecodeGo onErr f bs
      | [] => onErr
    else if 224 ≤ b1 && b1 ≤ 239 then
      match bs with
      | b2 :: b3 :: r3 =>
        if cont3ok b1 b2 && isCont b3 then
          Char.ofNat ((b1 - 224) * 4096 + (b2 - 128) * 64 + (b3 - 128)) ::
            utf8DecodeGo onErr f r3
        else onErr ++ utf8DecodeGo onErr f bs
      | _ => onErr ++ utf8DecodeGo onErr f bs
    else if 240 ≤ b1 && b1 ≤ 244 then
      match bs with
      | b2 :: b3 :: b4 :: r4 =>
        if cont4ok b1 b2 && isCont b3 && isCont b4 then
          Char.ofNat ((b1 - 240) * 262144 + (b2 - 128) * 4096 + (b3 - 128) * 64 + (b4 - 128)) ::
            utf8DecodeGo onErr f r4
        else onErr ++ utf8DecodeGo onErr f bs
      | _ => onErr ++ utf8DecodeGo onErr f bs
    else onErr ++ utf8DecodeGo onErr f bs

/-- UTF-8 decoding with a per-byte error handler. -/
def decodeWith (onErr : List Char) (bs : List ℕ) : List Char := utf8DecodeGo onErr bs.length bs

/-- The decoding performed by `open` with encoding utf-8 and errors=ignore:
invalid bytes are dropped and decoding is a total function. -/
def decodeIgnore (bs : List ℕ) : List Char := decodeWith [] bs

/-- The decoding that errors=replace would perform: one U+FFFD per rejected
byte. The code does not use this handler; it is defined for comparison. -/
def decodeReplace (bs : List ℕ) : List Char := decodeWith [Char.ofNat 65533] bs

/-- One entry of the directory walk (`self.target_path.rglob`): its path
relative to the scan root, whether it is a regular file, its `Path.suffix`,
and the outcome of opening and reading it (raw bytes on success, an error
otherwise). -/
structure FileEntry where
  relPath : String
  isFile : Bool
  suffix : String
  bytesResult : Except String (List ℕ)

/-- The extension allow-list `SecurityAuditor.file_extensions`. -/
def file_extensions : List String :=
  [".js", ".jsx", ".ts", ".tsx", ".py", ".java", ".cs", ".php",
   ".rb", ".go", ".rs", ".cpp", ".c", ".h", ".sql", ".json", ".yaml", ".yml"]

/-- The skip-token list of `SecurityAuditor._should_skip_file`. -/
def skip_patterns : List String :=
  ["node_modules", ".git", "__pycache__", ".venv", "venv",
   "build", "dist", ".next", "target", "bin", "obj"]

/-- Substring test on character lists. -/
def hasSubstr (t : List Char) : List Char → Bool
  | [] => t.isEmpty
  | c :: s => t.isPrefixOf (c :: s) || hasSubstr t s

/-- Python `str.lower`. -/
def lowerStr (s : String) : String := String.mk (toLowerC s.data)

/-- The model of `SecurityAuditor._should_skip_file`: some skip token occurs
as a substring of the full path string of the file (which includes the scan root,
since `rglob` yields paths under `self.target_path`). -/
def should_skip_file (fullPath : String) : Bool :=
  skip_patterns.any fun tok => hasSubstr tok.data fullPath.data

/-- Full path string of a walk entry: scan root, separator, relative path. -/
def fullPathOf (root : String) (f : FileEntry) : String :=
  String.mk (root.data ++ '/' :: f.relPath.data)

/-- Eligibility test of the walk loop in `SecurityAuditor.scan_directory`:
regular file, allow-listed extension (lowercased), not skip-filtered. -/
def eligibleFile (root : String) (f : FileEntry) : Bool :=
  f.isFile && (file_extensions.any fun e => e.data == (lowerStr f.suffix).data)
    && !(should_skip_file (fullPathOf root f))

/-- The model of `SecurityAuditor.scan_file` including its `try/except`: a
failed read yields no findings (the exception is caught and the file is
skipped); a successful read is decoded with errors=ignore and scanned. -/
def scan_file_read (relPath : String) (r : Except String (List ℕ)) : List Vulnerability :=
  match r with
  | .error _ => []
  | .ok bytes => scan_file relPath (String.mk (decodeIgnore bytes))

/-- Findings collected by one directory walk, in walk order. -/
def walkVulns (root : String) (entries : List FileEntry) : List Vulnerability :=
  concatMap
    (fun f => if eligibleFile root f then scan_file_read f.relPath f.bytesResult else [])
    entries

/-- Number of files scanned by one walk (`files_scanned`; a file whose read
fails inside `scan_file` is still counted). -/
def countScanned (root : String) (entries : List FileEntry) : ℕ :=
  (entries.filter (eligibleFile root)).length

/-- Sum of severity weights over a finding list. -/
def weightSum (l : List Vulnerability) : ℕ :=
  (l.map fun v => severity_weights v.severity).sum

/-- The model of `SecurityAuditor.calculate_risk_score`. -/
def calculate_risk_score (l : List Vulnerability) : ℚ :=
  if l = [] then 0
  else
    let total : ℚ := (weightSum l : ℚ)
    let maxPossible : ℚ := (l.length : ℚ) * 10
    if 0 < maxPossible then pyRound1 (total / maxPossible * 10) else 0

/-- The mutable auditor object: `self.vulnerabilities` is initialised to `[]`
in `SecurityAuditor.__init__` and only ever extended. -/
structure Auditor where
  vulnerabilities : List Vulnerability

/-- The scalar fields of the `AuditResult` dataclass. Its `vulnerabilities`
field is not copied here because in the Python code it is a reference to
`self.vulnerabilities`: the sequence observed through a returned result at any
later time is the current list of the `Auditor`. -/
structure AuditResultView where
  total_files_scanned : ℕ
  risk_score : ℚ

/-- The model of `SecurityAuditor.scan_directory`: extend the accumulated
list with the findings of this walk and build a result whose risk score is
computed over the whole accumulated list. -/
def scan_directory (a : Auditor) (root : String) (entries : List FileEntry) :
    Auditor × AuditResultView :=
  let newVulns := a.vulnerabilities ++ walkVulns root entries
  (⟨newVulns⟩, ⟨countScanned root entries, calculate_risk_score newVulns⟩)

/-- Base business impact per category
(`BusinessRiskCalculator.calculate_business_impact_score`; the categories
absent from `high_impact_categories` take the dict default `3.0`). -/
def high_impact_categories : Category → ℚ
  | .sql_injection => 9
  | .command_injection => 9
  | .xss => 7
  | .ssrf => 6
  | .hardcoded_secrets => 8
  | .insecure_deserialization => 15 / 2
  | .path_traversal => 13 / 2
  | .weak_crypto => 3
  | .information_disclosure => 3

/-- Severity multiplier of the business impact computation (the dict default
`0.3` coincides with the value for `low`). -/
def severity_multiplier : Severity → ℚ
  | .critical => 1
  | .high => 4 / 5
  | .medium => 3 / 5
  | .low => 3 / 10

/-- Impact contributed by one finding. -/
def impactOf (v : Vulnerability) : ℚ :=
  high_impact_categories v.category * severity_multiplier v.severity

/-- Python `list.sort(reverse=True)` on rational values: sort descending. -/
def sortDesc (l : List ℚ) : List ℚ := List.insertionSort (fun a b => a ≥ b) l

/-- The model of `BusinessRiskCalculator.calculate_business_impact_score`:
per-finding impacts, sorted descending, the top five averaged, rounded to one
decimal. -/
def calculate_business_impact_score (l : List Vulnerability) : ℚ :=
  if l = [] then 0
  else
    let impact_scores := l.map impactOf
    if impact_scores = [] then 0
    else
      let top_impacts := (sortDesc impact_scores).take 5
      pyRound1 (top_impacts.sum / (top_impacts.length : ℚ))

/-- The severity → count mapping built by `generate_risk_assessment` (a
severity absent from the findings has count zero, matching the missing key). -/
def severity_distribution (l : List Vulnerability) (s : Severity) : ℕ :=
  l.countP fun v => v.severity == s

/-- Remediation base costs (`BusinessRiskCalculator.remediation_costs`). -/
def remediation_costs : Severity → ℕ
  | .critical => 15000
  | .high => 8000
  | .medium => 3000
  | .low => 1000

/-- The four severities, used to enumerate the entries of a distribution. -/
def severityList : List Severity := [.critical, .high, .medium, .low]

/-- Per-severity entry of `BusinessRiskCalculator.calculate_remediation_cost`. -/
def remediation_cost (l : List Vulnerability) (s : Severity) : ℕ :=
  remediation_costs s * severity_distribution l s

/-- The total entry of `calculate_remediation_cost`: the Python loop sums
over the severities present in the distribution; severities with count zero
contribute zero, so the sum over all four severities is the same number. -/
def remediation_cost_total (l : List Vulnerability) : ℕ :=
  (severityList.map fun s => remediation_cost l s).sum

/-- Per-severity day estimates (`BusinessRiskCalculator.estimate_timeline`). -/
def timeline_days : Severity → ℕ
  | .critical => 30
  | .high => 14
  | .medium => 7
  | .low => 2

/-- Total estimated days over a finding list. -/
def total_timeline_days (l : List Vulnerability) : ℕ :=
  (severityList.map fun s => timeline_days s * severity_distribution l s).sum

/-- The model of `BusinessRiskCalculator.estimate_timeline`: total days,
halved for two parallel developers, a twenty percent buffer, converted to
months and rounded to one decimal. -/
def estimate_timeline (l : List Vulnerability) : ℚ :=
  pyRound1 ((total_timeline_days l : ℚ) / 2 * (6 / 5) / 30)

/-- The industry factor table (`BusinessRiskCalculator.industry_factors`),
keyed by the already-lowercased industry name. -/
def industry_factors (k : String) : Option ℚ :=
  if k = "fintech" then some (9 / 5)
  else if k = "healthcare" then some (17 / 10)
  else if k = "ecommerce" then some (7 / 5)
  else if k = "enterprise" then some (6 / 5)
  else if k = "consumer" then some 1
  else none

/-- The factor applied in `generate_risk_assessment`:
`self.industry_factors.get(industry.lower(), 1.0)`. -/
def industryFactor (industry : String) : ℚ := (industry_factors (lowerStr industry)).getD 1

/-- The adjusted risk score of `generate_risk_assessment`:
`min(10.0, risk_score * industry_factor)`. -/
def adjusted_risk_score (risk_score : ℚ) (industry : String) : ℚ :=
  min 10 (risk_score * industryFactor industry)

/-- The risk-level determination of
`BusinessRiskCalculator.generate_executive_summary`, thresholds checked
highest-first. -/
def riskLevel (score : ℚ) : String :=
  if 8 ≤ score then "CRITICAL"
  else if 6 ≤ score then "HIGH"
  else if 4 ≤ score then "MEDIUM"
  else "LOW"

/-- The risk-score formula exactly as the specification states it
(section 4.4): `round( sum(weight) / (count × 10) × 10, 1 )`, `0.0` when no
findings. Stated separately to be compared with the
`calculate_risk_score` of the code. -/
def specRiskScore (l : List Vulnerability) : ℚ :=
  if l.length = 0 then 0
  else pyRound1 ((weightSum l : ℚ) / ((l.length : ℚ) * 10) * 10)

/-- The business-impact formula exactly as the specification states it
(section 4.5, item 3): impacts sorted descending, averaged over the top
`min(5, count)` values, rounded to one decimal, `0.0` for no findings. -/
def specBusinessImpact (l : List Vulnerability) : ℚ :=
  if l.length = 0 then 0
  else
    let top := (sortDesc (l.map impactOf)).take (min 5 l.length)
    pyRound1 (top.sum / (top.length : ℚ))

/-- Finding with the given severity and category and neutral other fields
(used for concrete scenario inputs). -/
def mkVuln (s : Severity) (c : Category) : Vulnerability :=
  { severity := s
    category := c
    description := ""
    file_path := "f"
    line_number := 1
    code_snippet := []
    remediation := ""
    cwe_id := ""
    cvss_score := get_cvss_score s }

/-- Scenario C input: one critical, two high, one medium finding. -/
def findingsC6 : List Vulnerability :=
  [mkVuln .critical .sql_injection, mkVuln .high .xss,
   mkVuln .high .ssrf, mkVuln .medium .weak_crypto]

/-- The line of spec Scenario A. -/
def c1Line : String := "query(\"SELECT * FROM users WHERE id=\" + userId)"

/-- Scenario A input as a walk entry: a `.js` file whose bytes are the ASCII
encoding of `c1Line`. -/
def c1Entry : FileEntry := ⟨"index.js", true, ".js", .ok (c1Line.data.map Char.toNat)⟩

/-- Walk entry shared by several scenarios: a `.py` file containing the
single line `md5(x)` (one weak_crypto finding). -/
def pyFileEntry : FileEntry := ⟨"m.py", true, ".py", .ok ("md5(x)".data.map Char.toNat)⟩
theorem pyRoundInt_eq_floor_or_succ (q : ℚ) :
    pyRoundInt q = Int.floor q ∨ pyRoundInt q = Int.floor q + 1 := by
  unfold pyRoundInt
  split_ifs <;> simp

theorem floor_le_pyRoundInt (q : ℚ) : Int.floor q ≤ pyRoundInt q := by
  rcases pyRoundInt_eq_floor_or_succ q with h | h <;> omega

theorem pyRoundInt_le_of_le (q : ℚ) (z : ℤ) (h : q ≤ z) : pyRoundInt q ≤ z := by
  have hfloor : Int.floor q ≤ z := by
    have := Int.floor_le_floor h
    simpa using this
  rcases eq_or_lt_of_le hfloor with heq | hlt
  · have hhalf : q - Int.floor q < 1 / 2 := by
      have h1 : q ≤ (Int.floor q : ℚ) := by rw [heq]; exact_mod_cast h
      have h2 : (Int.floor q : ℚ) ≤ q := Int.floor_le q
      have : q - Int.floor q = 0 := by linarith
      rw [this]; norm_num
    unfold pyRoundInt
    rw [if_pos hhalf]
    exact hfloor
  · rcases pyRoundInt_eq_floor_or_succ q with h' | h' <;> omega

theorem le_pyRoundInt_of_le (q : ℚ) (z : ℤ) (h : (z : ℚ) ≤ q) : z ≤ pyRoundInt q :=
  le_trans (Int.le_floor.mpr h) (floor_le_pyRoundInt q)

/-- Evaluation rule for `pyRound1` when ten times the argument is an integer
(every concrete rounding in this development is of that shape). -/
theorem pyRound1_eq_of_mul_ten_int (q : ℚ) (z : ℤ) (h : 10 * q = (z : ℚ)) :
    pyRound1 q = (z : ℚ) / 10 := by
  unfold pyRound1 pyRoundInt
  rw [h, Int.floor_intCast]
  norm_num

theorem pyRound1_le_of_le (q : ℚ) (z : ℤ) (h : q ≤ z) : pyRound1 q ≤ z := by
  unfold pyRound1
  have h10 : (10 : ℚ) * q ≤ ((10 * z : ℤ) : ℚ) := by push_cast; linarith
  have := pyRoundInt_le_of_le (10 * q) (10 * z) h10
  have hcast : (pyRoundInt (10 * q) : ℚ) ≤ ((10 * z : ℤ) : ℚ) := by exact_mod_cast this
  push_cast at hcast
  linarith

theorem le_pyRound1_of_le (q : ℚ) (z : ℤ) (h : (z : ℚ) ≤ q) : (z : ℚ) ≤ pyRound1 q := by
  unfold pyRound1
  have h10 : ((10 * z : ℤ) : ℚ) ≤ 10 * q := by push_cast; linarith
  have := le_pyRoundInt_of_le (10 * q) (10 * z) h10
  have hcast : ((10 * z : ℤ) : ℚ) ≤ (pyRoundInt (10 * q) : ℚ) := by exact_mod_cast this
  push_cast at hcast
  linarith

theorem sum_le_mul_length (l : List ℚ) (b : ℚ) (h : ∀ x ∈ l, x ≤ b) :
    l.sum ≤ b * l.length := by
  induction l with
  | nil => simp
  | cons a t ih =>
    have ha := h a (by simp)
    have ht := ih fun x hx => h x (by simp [hx])
    simp only [List.sum_cons, List.length_cons]
    push_cast
    linarith

theorem le_sum_mul_length (l : List ℚ) (a : ℚ) (h : ∀ x ∈ l, a ≤ x) :
    a * l.length ≤ l.sum := by
  induction l with
  | nil => simp
  | cons b t ih =>
    have hb := h b (by simp)
    have ht := ih fun x hx => h x (by simp [hx])
    simp only [List.sum_cons, List.length_cons]
    push_cast
    linarith

theorem weightSum_ge_length (l : List Vulnerability) : l.length ≤ weightSum l := by
  induction l with
  | nil => simp [weightSum]
  | cons v t ih =>
    have hv : 1 ≤ severity_weights v.severity := by
      cases v.severity <;> simp [severity_weights]
    simp only [weightSum, List.map_cons, List.sum_cons, List.length_cons] at *
    omega

theorem weightSum_le_ten_length (l : List Vulnerability) : weightSum l ≤ 10 * l.length := by
  induction l with
  | nil => simp [weightSum]
  | cons v t ih =>
    have hv : severity_weights v.severity ≤ 10 := by
      cases v.severity <;> simp [severity_weights]
    simp only [weightSum, List.map_cons, List.sum_cons, List.length_cons] at *
    omega

theorem take_eq_take_min (l : List ℚ) (n : ℕ) : l.take n = l.take (min n l.length) := by
  rcases Nat.le_total l.length n with h | h
  · rw [Nat.min_eq_right h, List.take_of_length_le h, List.take_length]
  · rw [Nat.min_eq_left h]

theorem isPrefixOf_append_right (t s u : List Char) (h : t.isPrefixOf s = true) :
    t.isPrefixOf (s ++ u) = true := by
  induction t generalizing s with
  | nil => simp [List.isPrefixOf]
  | cons a t ih =>
    cases s with
    | nil => simp [List.isPrefixOf] at h
    | cons b s' =>
      simp only [List.cons_append, List.isPrefixOf, Bool.and_eq_true] at h ⊢
      exact ⟨h.1, ih s' h.2⟩

theorem hasSubstr_nil_left (u : List Char) : hasSubstr [] u = true := by
  induction u with
  | nil => rfl
  | cons c s ih => simp [hasSubstr, List.isPrefixOf]

theorem hasSubstr_append_right (t s u : List Char) (h : hasSubstr t s = true) :
    hasSubstr t (s ++ u) = true := by
  induction s with
  | nil =>
    have ht : t = [] := by
      cases t with
      | nil => rfl
      | cons a r => simp [hasSubstr, List.isEmpty] at h
    rw [ht, List.nil_append]
    exact hasSubstr_nil_left u
  | cons c s' ih =>
    simp only [hasSubstr, Bool.or_eq_true] at h
    rcases h with h | h
    · have := isPrefixOf_append_right t (c :: s') u h
      simp only [List.cons_append] at this ⊢
      simp [hasSubstr, this]
    · have := ih h
      simp only [List.cons_append]
      simp [hasSubstr, this]

theorem concatMap_append {α β : Type} (f : α → List β) (l1 l2 : List α) :
    concatMap f (l1 ++ l2) = concatMap f l1 ++ concatMap f l2 := by
  induction l1 with
  | nil => rfl
  | cons a t ih => simp [concatMap, ih, List.append_assoc]

theorem sortDesc_perm (l : List ℚ) : (sortDesc l).Perm l := List.perm_insertionSort _ l

theorem sortDesc_congr (a b : List ℚ) (h : a.Perm b) : sortDesc a = sortDesc b := by
  have s1 : List.Sorted (fun x y : ℚ => x ≥ y) (sortDesc a) := List.sorted_insertionSort _ a
  have s2 : List.Sorted (fun x y : ℚ => x ≥ y) (sortDesc b) := List.sorted_insertionSort _ b
  exact List.eq_of_perm_of_sorted ((sortDesc_perm a).trans (h.trans (sortDesc_perm b).symm)) s1 s2

theorem sortDesc_length (l : List ℚ) : (sortDesc l).length = l.length :=
  (sortDesc_perm l).length_eq

theorem impactOf_bounds (v : Vulnerability) : 0 ≤ impactOf v ∧ impactOf v ≤ 9 := by
  obtain ⟨s, c, _, _, _, _, _, _, _⟩ := v
  cases s <;> cases c <;>
    norm_num [impactOf, high_impact_categories, severity_multiplier]

/-- C2: for every finding list, the risk score equals
`round(sum of severity weights / (count × 10) × 10, 1)`, lies in `[0, 10]`,
and equals `0.0` exactly when the finding list is empty
(`SecurityAuditor.calculate_risk_score`). -/
theorem c2_risk_score_formula_and_range (l : List Vulnerability) :
    calculate_risk_score l = specRiskScore l
    ∧ 0 ≤ calculate_risk_score l
    ∧ calculate_risk_score l ≤ 10
    ∧ (calculate_risk_score l = 0 ↔ l = []) := by
  by_cases hl : l = []
  · subst hl
    norm_num [calculate_risk_score, specRiskScore]
  · have hlen : 0 < l.length := List.length_pos.mpr hl
    have hlenne : l.length ≠ 0 := Nat.pos_iff_ne_zero.mp hlen
    have hlenQ : (0 : ℚ) < (l.length : ℚ) := by exact_mod_cast hlen
    have hmax : (0 : ℚ) < (l.length : ℚ) * 10 := by linarith
    have hws1 : (l.length : ℚ) ≤ (weightSum l : ℚ) := by exact_mod_cast weightSum_ge_length l
    have hws2 : (weightSum l : ℚ) ≤ 10 * (l.length : ℚ) := by
      exact_mod_cast weightSum_le_ten_length l
    have hq1 : (1 : ℚ) ≤ (weightSum l : ℚ) / ((l.length : ℚ) * 10) * 10 := by
      rw [div_mul_eq_mul_div, le_div_iff₀ hmax]
      linarith
    have hq10 : (weightSum l : ℚ) / ((l.length : ℚ) * 10) * 10 ≤ 10 := by
      rw [div_mul_eq_mul_div, div_le_iff₀ hmax]
      linarith
    have hcode : calculate_risk_score l
        = pyRound1 ((weightSum l : ℚ) / ((l.length : ℚ) * 10) * 10) := by
      simp only [calculate_risk_score, if_neg hl, if_pos hmax]
    have hspec : specRiskScore l
        = pyRound1 ((weightSum l : ℚ) / ((l.length : ℚ) * 10) * 10) := by
      simp only [specRiskScore, if_neg hlenne]
    have hlow : (1 : ℚ) ≤ calculate_risk_score l := by
      rw [hcode]
      have := le_pyRound1_of_le ((weightSum l : ℚ) / ((l.length : ℚ) * 10) * 10) 1
        (by push_cast; linarith)
      push_cast at this
      linarith
    have hhigh : calculate_risk_score l ≤ 10 := by
      rw [hcode]
      have := pyRound1_le_of_le ((weightSum l : ℚ) / ((l.length : ℚ) * 10) * 10) 10
        (by push_cast; linarith)
      push_cast at this
      linarith
    refine ⟨hcode.trans hspec.symm, by linarith, hhigh, ?_, ?_⟩
    · intro h0
      linarith
    · intro hcontra
      exact absurd hcontra hl

/-- C3: for every finding list, the business-impact score equals the
formula of the spec (per-finding category base impact times severity multiplier, sorted
descending, the top `min(5, count)` averaged, rounded to one decimal), lies in
`[0, 10]`, and is `0.0` for the empty list
(`BusinessRiskCalculator.calculate_business_impact_score`). -/
theorem c3_business_impact_formula_and_range (l : List Vulnerability) :
    calculate_business_impact_score l = specBusinessImpact l
    ∧ 0 ≤ calculate_business_impact_score l
    ∧ calculate_business_impact_score l ≤ 10
    ∧ calculate_business_impact_score ([] : List Vulnerability) = 0 := by
  have hnil : calculate_business_impact_score ([] : List Vulnerability) = 0 := by
    norm_num [calculate_business_impact_score]
  by_cases hl : l = []
  · subst hl
    norm_num [calculate_business_impact_score, specBusinessImpact]
  · have hlen : 0 < l.length := List.length_pos.mpr hl
    have hlenne : l.length ≠ 0 := Nat.pos_iff_ne_zero.mp hlen
    have hmapne : l.map impactOf ≠ [] := by
      simpa [List.map_eq_nil_iff] using hl
    have hslen : (sortDesc (l.map impactOf)).length = l.length := by
      rw [sortDesc_length, List.length_map]
    have htake : (sortDesc (l.map impactOf)).take 5
        = (sortDesc (l.map impactOf)).take (min 5 l.length) := by
      rw [← hslen]
      exact take_eq_take_min _ 5
    have htoplen : ((sortDesc (l.map impactOf)).take 5).length = min 5 l.length := by
      rw [List.length_take, hslen]
    have htoppos : 0 < ((sortDesc (l.map impactOf)).take 5).length := by
      rw [htoplen]
      omega
    have hmem : ∀ x ∈ (sortDesc (l.map impactOf)).take 5, 0 ≤ x ∧ x ≤ 9 := by
      intro x hx
      have hx2 : x ∈ sortDesc (l.map impactOf) := List.mem_of_mem_take hx
      have hx3 : x ∈ l.map impactOf := (sortDesc_perm _).mem_iff.mp hx2
      obtain ⟨v, _, rfl⟩ := List.mem_map.mp hx3
      exact impactOf_bounds v
    have htlQ : (0 : ℚ) < (((sortDesc (l.map impactOf)).take 5).length : ℚ) := by
      exact_mod_cast htoppos
    have hsum0 : 0 ≤ ((sortDesc (l.map impactOf)).take 5).sum := by
      have := le_sum_mul_length ((sortDesc (l.map impactOf)).take 5) 0
        fun x hx => (hmem x hx).1
      simpa using this
    have hsum9 : ((sortDesc (l.map impactOf)).take 5).sum
        ≤ 9 * (((sortDesc (l.map impactOf)).take 5).length : ℚ) :=
      sum_le_mul_length _ 9 fun x hx => (hmem x hx).2
    have havg0 : 0 ≤ ((sortDesc (l.map impactOf)).take 5).sum
        / (((sortDesc (l.map impactOf)).take 5).length : ℚ) :=
      div_nonneg hsum0 (le_of_lt htlQ)
    have havg9 : ((sortDesc (l.map impactOf)).take 5).sum
        / (((sortDesc (l.map impactOf)).take 5).length : ℚ) ≤ 9 := by
      rw [div_le_iff₀ htlQ]
      linarith
    have hcode : calculate_business_impact_score l
        = pyRound1 (((sortDesc (l.map impactOf)).take 5).sum
            / (((sortDesc (l.map impactOf)).take 5).length : ℚ)) := by
      simp only [calculate_business_impact_score, if_neg hl, if_neg hmapne]
    have hspec : specBusinessImpact l
        = pyRound1 (((sortDesc (l.map impactOf)).take 5).sum
            / (((sortDesc (l.map impactOf)).take 5).length : ℚ)) := by
      simp only [specBusinessImpact, if_neg hlenne, ← htake]
    have hlow : (0 : ℚ) ≤ calculate_business_impact_score l := by
      rw [hcode]
      have := le_pyRound1_of_le (((sortDesc (l.map impactOf)).take 5).sum
        / (((sortDesc (l.map impactOf)).take 5).length : ℚ)) 0 (by push_cast; linarith)
      push_cast at this
      linarith
    have hhigh : calculate_business_impact_score l ≤ 10 := by
      rw [hcode]
      have := pyRound1_le_of_le (((sortDesc (l.map impactOf)).take 5).sum
        / (((sortDesc (l.map impactOf)).take 5).length : ℚ)) 9 (by push_cast; linarith)
      push_cast at this
      linarith
    exact ⟨hcode.trans hspec.symm, hlow, hhigh, hnil⟩

/-- C4: the adjusted risk score is `min(10.0, base × industry multiplier)`,
the multiplier is looked up case-insensitively (the code lowercases the
industry first) with default `1.0` for unknown industries, and the result
never exceeds `10.0` (`BusinessRiskCalculator.generate_risk_assessment` and
`industry_factors`). -/
theorem c4_adjusted_risk_score (b : ℚ) (ind : String) (h0 : 0 ≤ b) (h10 : b ≤ 10) :
    adjusted_risk_score b ind = min 10 (b * industryFactor ind)
    ∧ adjusted_risk_score b ind ≤ 10
    ∧ (industry_factors (lowerStr ind) = none → adjusted_risk_score b ind = min 10 (b * 1))
    ∧ industryFactor "FinTech" = 9 / 5
    ∧ industryFactor "HEALTHCARE" = 17 / 10
    ∧ industryFactor "ecommerce" = 7 / 5
    ∧ industryFactor "Enterprise" = 6 / 5
    ∧ industryFactor "consumer" = 1
    ∧ industryFactor "Gaming" = 1 := by
  have hft : lowerStr "FinTech" = "fintech" := rfl
  have hhc : lowerStr "HEALTHCARE" = "healthcare" := rfl
  have hec : lowerStr "ecommerce" = "ecommerce" := rfl
  have hen : lowerStr "Enterprise" = "enterprise" := rfl
  have hco : lowerStr "consumer" = "consumer" := rfl
  have hga : lowerStr "Gaming" = "gaming" := rfl
  refine ⟨rfl, min_le_left _ _, ?_, ?_, ?_, ?_, ?_, ?_, ?_⟩
  · intro hnone
    unfold adjusted_risk_score industryFactor
    rw [hnone]
    rfl
  · simp [industryFactor, hft, industry_factors]
  · simp [industryFactor, hhc, industry_factors]
  · simp [industryFactor, hec, industry_factors]
  · simp [industryFactor, hen, industry_factors]
  · simp [industryFactor, hco, industry_factors]
  · simp [industryFactor, hga, industry_factors]

/-- C4 witness: the theorem applied at base score `5` and industry
`"FinTech"`. -/
theorem c4_adjusted_risk_score_witness :
    adjusted_risk_score 5 "FinTech" = min 10 (5 * industryFactor "FinTech") :=
  (c4_adjusted_risk_score 5 "FinTech" (by norm_num) (by norm_num)).1

/-- C5: the executive-summary risk level is determined by thresholds checked
highest-first (at least 8 gives CRITICAL, else at least 6 gives HIGH, else at
least 4 gives MEDIUM, else LOW), with the six boundary evaluations of the
claim (`BusinessRiskCalculator.generate_executive_summary`). -/
theorem c5_risk_level_thresholds (s : ℚ) :
    ((riskLevel s = "CRITICAL") ↔ 8 ≤ s)
    ∧ ((riskLevel s = "HIGH") ↔ 6 ≤ s ∧ s < 8)
    ∧ ((riskLevel s = "MEDIUM") ↔ 4 ≤ s ∧ s < 6)
    ∧ ((riskLevel s = "LOW") ↔ s < 4)
    ∧ riskLevel 8 = "CRITICAL"
    ∧ riskLevel 7.99 = "HIGH"
    ∧ riskLevel 6 = "HIGH"
    ∧ riskLevel 5.99 = "MEDIUM"
    ∧ riskLevel 4 = "MEDIUM"
    ∧ riskLevel 3.99 = "LOW" := by
  refine ⟨?_, ?_, ?_, ?_, ?_, ?_, ?_, ?_, ?_, ?_⟩
  · constructor
    · intro h
      unfold riskLevel at h
      split_ifs at h with h1 h2 h3
      · exact h1
      · exact absurd h (by decide)
      · exact absurd h (by decide)
      · exact absurd h (by decide)
    · intro h
      unfold riskLevel
      rw [if_pos h]
  · constructor
    · intro h
      unfold riskLevel at h
      split_ifs at h with h1 h2 h3
      · exact absurd h (by decide)
      · exact ⟨h2, lt_of_not_le h1⟩
      · exact absurd h (by decide)
      · exact absurd h (by decide)
    · intro h
      unfold riskLevel
      rw [if_neg (not_le.mpr h.2), if_pos h.1]
  · constructor
    · intro h
      unfold riskLevel at h
      split_ifs at h with h1 h2 h3
      · exact absurd h (by decide)
      · exact absurd h (by decide)
      · exact ⟨h3, lt_of_not_le h2⟩
      · exact absurd h (by decide)
    · intro h
      unfold riskLevel
      rw [if_neg (not_le.mpr (lt_of_lt_of_le h.2 (by norm_num))),
        if_neg (not_le.mpr h.2), if_pos h.1]
  · constructor
    · intro h
      unfold riskLevel at h
      split_ifs at h with h1 h2 h3
      · exact absurd h (by decide)
      · exact absurd h (by decide)
      · exact absurd h (by decide)
      · exact lt_of_not_le h3
    · intro h
      unfold riskLevel
      rw [if_neg (not_le.mpr (lt_of_lt_of_le h (by norm_num))),
        if_neg (not_le.mpr (lt_of_lt_of_le h (by norm_num))),
        if_neg (not_le.mpr h)]
  · norm_num [riskLevel]
  · norm_num [riskLevel]
  · norm_num [riskLevel]
  · norm_num [riskLevel]
  · norm_num [riskLevel]
  · norm_num [riskLevel]

/-- C5 witness: the boundary evaluation at an adjusted score of exactly 8. -/
theorem c5_risk_level_thresholds_witness : riskLevel 8 = "CRITICAL" :=
  (c5_risk_level_thresholds 8).2.2.2.2.1

/-- C6: for findings (critical, high, high, medium) the severity distribution
is critical 1, high 2, medium 1; the remediation cost total is
15000 + 16000 + 3000 = 34000; and the timeline is
round(((30 + 28 + 7) / 2) × 1.2 / 30, 1) = 1.3 months
(`BusinessRiskCalculator.calculate_remediation_cost` and
`estimate_timeline`; none of these quantities depends on the industry). -/
theorem c6_scenario_c_distribution_cost_timeline :
    severity_distribution findingsC6 .critical = 1
    ∧ severity_distribution findingsC6 .high = 2
    ∧ severity_distribution findingsC6 .medium = 1
    ∧ severity_distribution findingsC6 .low = 0
    ∧ remediation_cost findingsC6 .critical = 15000
    ∧ remediation_cost findingsC6 .high = 16000
    ∧ remediation_cost findingsC6 .medium = 3000
    ∧ remediation_cost_total findingsC6 = 34000
    ∧ total_timeline_days findingsC6 = 30 + 28 + 7
    ∧ estimate_timeline findingsC6 = 1.3 := by
  have hdays : total_timeline_days findingsC6 = 65 := by decide
  refine ⟨by decide, by decide, by decide, by decide, by decide, by decide, by decide,
    by decide, by decide, ?_⟩
  unfold estimate_timeline
  rw [hdays]
  have := pyRound1_eq_of_mul_ten_int ((65 : ℚ) / 2 * (6 / 5) / 30) 13 (by norm_num)
  rw [show ((65 : ℕ) : ℚ) = (65 : ℚ) by norm_num, this]
  norm_num

/-- C9: the risk scorer and the business risk calculator are
order-independent: every aggregate they compute is invariant under
permutation of the finding list. -/
theorem c9_order_independence (l l' : List Vulnerability) (h : l.Perm l') :
    calculate_risk_score l = calculate_risk_score l'
    ∧ (∀ s, severity_distribution l s = severity_distribution l' s)
    ∧ (∀ s, remediation_cost l s = remediation_cost l' s)
    ∧ remediation_cost_total l = remediation_cost_total l'
    ∧ calculate_business_impact_score l = calculate_business_impact_score l'
    ∧ estimate_timeline l = estimate_timeline l'
    ∧ (∀ industry, adjusted_risk_score (calculate_risk_score l) industry
        = adjusted_risk_score (calculate_risk_score l') industry) := by
  have hlen := h.length_eq
  have hsum : weightSum l = weightSum l' := (h.map _).sum_eq
  have hdist : ∀ s, severity_distribution l s = severity_distribution l' s :=
    fun s => h.countP_eq _
  have hnil : l = [] ↔ l' = [] := by
    constructor
    · intro e
      subst e
      exact h.symm.eq_nil
    · intro e
      subst e
      exact h.eq_nil
  have hrisk : calculate_risk_score l = calculate_risk_score l' := by
    by_cases e : l = []
    · rw [e, hnil.mp e]
    · have e' : l' ≠ [] := fun x => e (hnil.mpr x)
      simp only [calculate_risk_score, if_neg e, if_neg e', hsum, hlen]
  have himp : calculate_business_impact_score l = calculate_business_impact_score l' := by
    by_cases e : l = []
    · rw [e, hnil.mp e]
    · have e' : l' ≠ [] := fun x => e (hnil.mpr x)
      have m : l.map impactOf ≠ [] := by simpa [List.map_eq_nil_iff] using e
      have m' : l'.map impactOf ≠ [] := by simpa [List.map_eq_nil_iff] using e'
      have hsort : sortDesc (l.map impactOf) = sortDesc (l'.map impactOf) :=
        sortDesc_congr _ _ (h.map _)
      simp only [calculate_business_impact_score, if_neg e, if_neg e', if_neg m, if_neg m',
        hsort]
  have hcost : ∀ s, remediation_cost l s = remediation_cost l' s := by
    intro s
    unfold remediation_cost
    rw [hdist s]
  have hcostT : remediation_cost_total l = remediation_cost_total l' := by
    unfold remediation_cost_total
    simp only [severityList, List.map_cons, List.map_nil, List.sum_cons, List.sum_nil]
    rw [hcost Severity.critical, hcost Severity.high, hcost Severity.medium,
      hcost Severity.low]
  have htime : estimate_timeline l = estimate_timeline l' := by
    unfold estimate_timeline total_timeline_days
    simp only [severityList, List.map_cons, List.map_nil, List.sum_cons, List.sum_nil]
    rw [hdist Severity.critical, hdist Severity.high, hdist Severity.medium,
      hdist Severity.low]
  exact ⟨hrisk, hdist, hcost, hcostT, himp, htime, fun industry => by rw [hrisk]⟩

/-- C9 witness: the theorem applied to a concrete two-element finding list
and its transposition. -/
theorem c9_order_independence_witness :
    calculate_risk_score [mkVuln .critical .sql_injection, mkVuln .medium .weak_crypto]
      = calculate_risk_score [mkVuln .medium .weak_crypto, mkVuln .critical .sql_injection] :=
  (c9_order_independence _ _
    (List.Perm.swap (mkVuln .medium .weak_crypto) (mkVuln .critical .sql_injection) [])).1

/-- C7 counterexample: the decoder used by the code (errors=ignore) drops
the invalid byte `0xFF` instead of replacing it: decoding `[97, 255, 98]`
yields `"ab"`, not `"a<U+FFFD>b"` as the replacement handler would. -/
theorem c7_decode_drops_counterexample :
    decodeIgnore [97, 255, 98] = ['a', 'b']
    ∧ decodeIgnore [97, 255, 98] ≠ ['a', Char.ofNat 65533, 'b']
    ∧ decodeReplace [97, 255, 98] = ['a', Char.ofNat 65533, 'b'] := by
  decide

/-- C7 (amended): a per-file read failure is caught, the file contributes no
findings, and the walk continues over the remaining files; decoding (a total
function) drops invalid bytes. -/
theorem c7_read_failure_skips_file (root : String) (pre suf : List FileEntry)
    (f : FileEntry) (err : String) (hf : f.bytesResult = Except.error err) :
    scan_file_read f.relPath f.bytesResult = []
    ∧ walkVulns root (pre ++ f :: suf) = walkVulns root pre ++ walkVulns root suf := by
  have hread : scan_file_read f.relPath f.bytesResult = [] := by
    rw [hf]
    rfl
  refine ⟨hread, ?_⟩
  unfold walkVulns
  rw [concatMap_append]
  show _ ++ concatMap _ (f :: suf) = _
  have hmid : (if eligibleFile root f then scan_file_read f.relPath f.bytesResult else [])
      = [] := by
    split_ifs with hel
    · exact hread
    · rfl
  show _ ++ ((if eligibleFile root f then scan_file_read f.relPath f.bytesResult else [])
      ++ concatMap _ suf) = _
  rw [hmid, List.nil_append]

/-- C7 witness: the skip theorem applied to a concrete walk with a
permission-denied file between two readable ones. -/
theorem c7_read_failure_skips_file_witness :
    walkVulns "proj" ([pyFileEntry] ++ ⟨"bad.py", true, ".py", .error "PermissionError"⟩
        :: [pyFileEntry])
      = walkVulns "proj" [pyFileEntry] ++ walkVulns "proj" [pyFileEntry] :=
  (c7_read_failure_skips_file "proj" [pyFileEntry] [pyFileEntry]
    ⟨"bad.py", true, ".py", .error "PermissionError"⟩ "PermissionError" rfl).2

/-- C10: when the path string of the scan root itself contains a skip token, every
walk entry is filtered out (the skip test sees the full path, root included),
so the scan returns no findings, zero files scanned and risk score zero,
regardless of the contents of the tree. -/
theorem c10_skip_token_in_root (root : String) (entries : List FileEntry) (tok : String)
    (hmem : tok ∈ skip_patterns) (hsub : hasSubstr tok.data root.data = true) :
    (scan_directory ⟨[]⟩ root entries).1.vulnerabilities = []
    ∧ (scan_directory ⟨[]⟩ root entries).2.total_files_scanned = 0
    ∧ (scan_directory ⟨[]⟩ root entries).2.risk_score = 0 := by
  have hskip : ∀ f : FileEntry, should_skip_file (fullPathOf root f) = true := by
    intro f
    unfold should_skip_file
    apply List.any_eq_true.mpr
    refine ⟨tok, hmem, ?_⟩
    show hasSubstr tok.data (fullPathOf root f).data = true
    have hdata : (fullPathOf root f).data = root.data ++ '/' :: f.relPath.data := rfl
    rw [hdata]
    exact hasSubstr_append_right _ _ _ hsub
  have helig : ∀ f : FileEntry, eligibleFile root f = false := by
    intro f
    unfold eligibleFile
    rw [hskip f]
    simp
  have hwalk : walkVulns root entries = [] := by
    induction entries with
    | nil => rfl
    | cons f t ih =>
      show (if eligibleFile root f then scan_file_read f.relPath f.bytesResult else [])
          ++ walkVulns root t = []
      rw [helig f, if_neg (by simp), List.nil_append]
      exact ih
  have hcount : countScanned root entries = 0 := by
    unfold countScanned
    rw [List.length_eq_zero]
    apply List.filter_eq_nil_iff.mpr
    intro f _
    simp [helig f]
  refine ⟨?_, hcount, ?_⟩
  · show ([] : List Vulnerability) ++ walkVulns root entries = []
    rw [hwalk, List.nil_append]
  · show calculate_risk_score (([] : List Vulnerability) ++ walkVulns root entries) = 0
    rw [hwalk, List.nil_append]
    norm_num [calculate_risk_score]

/-- C10 witness: a root path containing the skip token `build`, walked over a
tree containing a scannable vulnerable file, scans nothing. -/
theorem c10_skip_token_in_root_witness :
    (scan_directory ⟨[]⟩ "ci/build" [pyFileEntry]).1.vulnerabilities = []
    ∧ (scan_directory ⟨[]⟩ "ci/build" [pyFileEntry]).2.total_files_scanned = 0
    ∧ (scan_directory ⟨[]⟩ "ci/build" [pyFileEntry]).2.risk_score = 0 :=
  c10_skip_token_in_root "ci/build" [pyFileEntry] "build" (by decide) (by decide)

set_option maxHeartbeats 4000000 in
/-- C1: contrary to spec Scenario A, scanning a `.js` file whose single line
is `query("SELECT * FROM users WHERE id=" + userId)` yields NO finding at
all: no catalog pattern matches the line. In particular the
query-with-concatenation rule (the fifth sql_injection pattern) cannot match
it, because its negated quote class cannot cross the closing quote of the
string literal, so the required plus sign would have to occur inside the
quotes; and the SELECT rule requires FROM after the plus sign. Evaluated both
directly on the line and through a full directory scan of a one-file tree. -/
theorem c1_scenario_a_line_yields_no_finding :
    scan_file "index.js" c1Line = []
    ∧ (scan_directory ⟨[]⟩ "app" [c1Entry]).1.vulnerabilities = []
    ∧ (scan_directory ⟨[]⟩ "app" [c1Entry]).2.total_files_scanned = 1 := by
  refine ⟨by decide, by decide, by decide⟩

set_option maxHeartbeats 4000000 in
/-- C8: the result returned by `scan_directory` is not immutable: its
`vulnerabilities` field is a reference to `self.vulnerabilities`, which a
second `scan_directory` call on the same auditor extends (it is never reset).
After scanning the same one-finding tree twice, the list the first result
refers to has grown from one finding to two. -/
theorem c8_second_scan_mutates_first_result :
    ((scan_directory ⟨[]⟩ "proj" [pyFileEntry]).1.vulnerabilities).length = 1
    ∧ (((scan_directory (scan_directory ⟨[]⟩ "proj" [pyFileEntry]).1 "proj"
        [pyFileEntry]).1).vulnerabilities).length = 2 := by
  refine ⟨by decide, by decide⟩
